import Mathlib

set_option maxRecDepth 8000

/-!
Verification of the mamba front end (src/src/main.cpp) against its
natural-language specification.

The embedding is a shallow one.  Filesystem paths are lists of path
components.  One invocation of install_specs is modelled as a pure
function from the ambient configuration (Ctx, filled by
set_global_options and the option parsers) and an environment oracle
(World: what the filesystem and the network answer) to the ordered list
of observable effects of the run, the process result, and the final
state of the Transaction when one was built.

Library components that are part of the repository but whose sources are
not under src (MSolver, MTransaction, MSubdirData, calculate_channel_urls,
cache_fn_url) are modelled from the spec; each such definition carries a
doc comment saying so.  Everything else is translated directly from
src/src/main.cpp.
-/

namespace Mamba

/-- Filesystem paths, modelled as lists of path components. -/
abbrev Path := List String

/-- Provenance of a Repo registered into the Pool: either the installed
snapshot (PrefixData, line 306) or one remote channel (line 312). -/
inductive RepoId where
  | installed : RepoId
  | channel (url : String) : RepoId
  deriving DecidableEq, Repr

/-- One planned Transaction step: Link or Unlink of a package. -/
inductive Step where
  | link (pkg : String) : Step
  | unlink (pkg : String) : Step
  deriving DecidableEq, Repr

/-- Observable actions of one invocation, in program order. -/
inductive Effect where
  | print (msg : String) : Effect
  | createDirs (p : Path) : Effect
  | cacheWrite (p : Path) : Effect
  | registerRepo (r : RepoId) (priority : Nat × Nat) : Effect
  | logJson : Effect
  | solveCall : Effect
  | promptUser : Effect
  | runStep (s : Step) : Effect
  deriving DecidableEq, Repr

/-- States of the Transaction engine (spec section 4.4). -/
inductive TransState where
  | Planned : TransState
  | Confirmed : TransState
  | Executing : TransState
  | Completed : TransState
  | Aborted : TransState
  deriving DecidableEq, Repr

/-- How the invocation ended: an explicit exit(code) or a normal return. -/
inductive RunResult where
  | exited (code : Nat) : RunResult
  | completed : RunResult
  deriving DecidableEq, Repr

/-- Everything one run produces: the effect trace, the process result and
the final Transaction state (none when no Transaction was built). -/
structure RunOut where
  effects : List Effect
  result : RunResult
  transState : Option TransState
  deriving DecidableEq, Repr

/-- The ambient Context after set_global_options (lines 41 to 72 and
136 to 145): root and target paths, channel list and the global flags. -/
structure Ctx where
  rootPrefixPath : Path
  targetPrefixPath : Path
  channels : List String
  alwaysYes : Bool
  dryRun : Bool
  offline : Bool
  json : Bool
  deriving DecidableEq, Repr

/-- The environment oracle: what the filesystem and the network answer
during one run.  targetExists models fs exists on the target path,
cacheDirOk whether create_directories on the cache dir succeeds,
downloadOk whether the repodata download batch succeeds, solveResult the
outcome of the solver (none is a conflict, some plan the resolved step
list), promptAnswer the external yes or no answer. -/
structure World where
  targetExists : Bool
  cacheDirOk : Bool
  downloadOk : Bool
  solveResult : Option (List Step)
  promptAnswer : Bool
  deriving DecidableEq, Repr

/-- Modelled from the spec (section 6): the resolved channel list is the
configured channel list in order, one metadata source per configured
channel; the URL resolution itself (calculate_channel_urls) is not under
src. -/
def calculate_channel_urls (channels : List String) : List String := channels

/-- Modelled from the spec (section 4.1): a deterministic cache file name
computed from the URL; cache_fn_url is not under src. -/
def cache_fn_url (url : String) : String := url

/-- From src/src/main.cpp lines 309 to 315: the loop registering one Repo
per subdir, each with priority pair (prio_counter--, 0). -/
def channel_repo_effects_from (prio : Nat) (urls : List String) : List Effect :=
  match urls with
  | [] => []
  | u :: rest =>
      Effect.registerRepo (RepoId.channel u) (prio, 0) ::
        channel_repo_effects_from (prio - 1) rest

/-- Line 309: prio_counter starts at subdirs.size(). -/
def channel_repo_effects (urls : List String) : List Effect :=
  channel_repo_effects_from urls.length urls

/-- Modelled from the spec (section 4.4): MTransaction prompt is not under
src.  The confirmation is skipped in dry-run mode (the Transaction stays
at Planned and the later execute call performs nothing), auto-accepted
when always_yes is set, and otherwise decided by the external answer. -/
def trans_prompt (dryRun alwaysYes answer : Bool) : Bool :=
  if dryRun then true else if alwaysYes then true else answer

/-- Modelled from the spec (section 4.4): MTransaction execute is not
under src.  Dry-run halts at Planned and never executes; otherwise
execution runs the planned Link and Unlink steps in order. -/
def trans_execute (dryRun : Bool) (plan : List Step) : List Effect :=
  if dryRun then [] else plan.map Effect.runStep

/-- Modelled from the spec (section 4.4): the state the Transaction is in
after the execute call of line 347 returns. -/
def trans_final_state (dryRun : Bool) : TransState :=
  if dryRun then TransState.Planned else TransState.Completed

/-- Line 271: the package cache directory root_prefix pkgs cache. -/
def cacheDirOf (ctx : Ctx) : Path := ctx.rootPrefixPath ++ ["pkgs", "cache"]

/-- Lines 248 to 300: the effects preceding the Pool build in every run
that passes the configuration checks: the banner print, the creation of
the package cache dirs (line 274) and one cache write per channel URL
performed by the repodata download (lines 287 to 300). -/
def preEffects (ctx : Ctx) : List Effect :=
  Effect.print "banner" ::
    Effect.createDirs (cacheDirOf ctx) ::
      (calculate_channel_urls ctx.channels).map fun u =>
        Effect.cacheWrite (cacheDirOf ctx ++ [cache_fn_url u])

/-- Lines 302 to 315: the Repo registrations: first the Repo built from
PrefixData (line 306), which is never given an explicit priority and so
keeps the default pair (0, 0) (per spec section 3 the installed snapshot
feeds the Pool as the lowest-priority Repo), then one Repo per channel
with decreasing priorities. -/
def repoRegEffects (ctx : Ctx) : List Effect :=
  Effect.registerRepo RepoId.installed (0, 0) ::
    channel_repo_effects (calculate_channel_urls ctx.channels)

/-- Lines 324 to 327: the json log when the json flag is set. -/
def jsonEffects (ctx : Ctx) : List Effect :=
  if ctx.json then [Effect.logJson] else []

/-- Lines 340 to 345: creation of the target environment directories,
only for create and only outside dry-run. -/
def envDirEffects (ctx : Ctx) (create_env : Bool) : List Effect :=
  if create_env && !ctx.dryRun then
    [Effect.createDirs ctx.targetPrefixPath,
     Effect.createDirs (ctx.targetPrefixPath ++ ["conda-meta"]),
     Effect.createDirs (ctx.targetPrefixPath ++ ["pkgs"])]
  else []

/-- Shallow embedding of install_specs (src/src/main.cpp lines 241 to
348).  Messages are abbreviated tags.  The order follows the source: the
banner and the configuration checks (lines 250 to 269), the cache dir
creation and the repodata downloads (preEffects), the Repo registrations
(repoRegEffects), the solve (lines 317 to 319), the optional json log,
the confirmation prompt (line 336) with exit(0) on decline (line 338),
the target environment dir creation (envDirEffects) and the execute call
(line 347). -/
def install_specs (ctx : Ctx) (create_env : Bool) (w : World) : RunOut :=
  if ctx.rootPrefixPath.isEmpty then
    ⟨[Effect.print "banner", Effect.print "no MAMBA_ROOT_PREFIX set"],
      RunResult.exited 1, none⟩
  else if ctx.targetPrefixPath.isEmpty then
    ⟨[Effect.print "banner", Effect.print "no active target"],
      RunResult.exited 1, none⟩
  else if !w.targetExists && !create_env then
    ⟨[Effect.print "banner", Effect.print "Prefix does not exist"],
      RunResult.exited 1, none⟩
  else if !w.cacheDirOk then
    ⟨[Effect.print "banner", Effect.print "Could not create pkgs cache dirs"],
      RunResult.exited 1, none⟩
  else if !w.downloadOk then
    ⟨preEffects ctx ++ [Effect.print "repodata download failed"],
      RunResult.exited 1, none⟩
  else
    match w.solveResult with
    | none =>
        ⟨preEffects ctx ++ repoRegEffects ctx ++
            [Effect.solveCall, Effect.print "solver conflict"],
          RunResult.exited 1, none⟩
    | some plan =>
        if trans_prompt ctx.dryRun ctx.alwaysYes w.promptAnswer then
          ⟨preEffects ctx ++ repoRegEffects ctx ++ [Effect.solveCall] ++
              jsonEffects ctx ++ [Effect.promptUser] ++
              envDirEffects ctx create_env ++ trans_execute ctx.dryRun plan,
            RunResult.completed, some (trans_final_state ctx.dryRun)⟩
        else
          ⟨preEffects ctx ++ repoRegEffects ctx ++ [Effect.solveCall] ++
              jsonEffects ctx ++ [Effect.promptUser],
            RunResult.exited 0, some TransState.Planned⟩

/-- Shallow embedding of the create subcommand callback
(src/src/main.cpp lines 421 to 447): set the target to the given path,
exit(1) when it already exists, otherwise run install_specs with
create_env set. -/
def create_command (ctx0 : Ctx) (pfx : Path) (w : World) : RunOut :=
  let ctx := { ctx0 with targetPrefixPath := pfx }
  if w.targetExists then
    ⟨[Effect.print "Prefix already exists"], RunResult.exited 1, none⟩
  else
    install_specs ctx true w

/-- True exactly on Link and Unlink step effects. -/
def Effect.isStep : Effect → Bool
  | Effect.runStep _ => true
  | _ => false

/-- The path a filesystem-mutating effect writes to, none otherwise. -/
def Effect.mutatedPath : Effect → Option Path
  | Effect.createDirs p => some p
  | Effect.cacheWrite p => some p
  | _ => none

/-- True on every effect that creates or modifies a filesystem location. -/
def Effect.isFsMutation : Effect → Bool
  | Effect.createDirs _ => true
  | Effect.cacheWrite _ => true
  | Effect.runStep _ => true
  | _ => false

/-- True when the run ended in exit with a nonzero code. -/
def isFailureExit : RunResult → Bool
  | RunResult.exited c => c != 0
  | RunResult.completed => false

/-- The path p lies inside the pkgs area of the given root. -/
def underPkgs (root p : Path) : Prop :=
  ∃ t : Path, p = root ++ "pkgs" :: t

/-- Strict order on priority pairs: first component first. -/
def priorityLt (a b : Nat × Nat) : Prop :=
  a.1 < b.1 ∨ (a.1 = b.1 ∧ a.2 < b.2)

/-- The first component of the priority pair that the loop of lines 309
to 315 registers for the channel at position i (0 when none). -/
def registeredRank (urls : List String) (i : Nat) : Nat :=
  match (channel_repo_effects urls)[i]? with
  | some (Effect.registerRepo _ pr) => pr.1
  | _ => 0

/-- The libsolv flag number for allowing downgrades (solver.h). -/
def SOLVER_FLAG_ALLOW_DOWNGRADE : Nat := 1

/-- The libsolv job action number for an install request (solver.h). -/
def SOLVER_INSTALL : Nat := 256

/-- From src/src/main.cpp line 317: the flag list passed to the MSolver
constructor on every install and create invocation. -/
def install_solver_flags : List (Nat × Nat) := [(SOLVER_FLAG_ALLOW_DOWNGRADE, 1)]

/-- The solver policy switches relevant to the claims. -/
structure SolverFlags where
  allowDowngrade : Bool
  deriving DecidableEq, Repr

/-- Modelled from the spec (section 4.3): MSolver is not under src; the
flag pair (SOLVER_FLAG_ALLOW_DOWNGRADE, 1) in the constructor list
enables the downgrade relaxation for the whole solve. -/
def flagsOf (l : List (Nat × Nat)) : SolverFlags :=
  ⟨l.any fun p => p.1 == SOLVER_FLAG_ALLOW_DOWNGRADE && p.2 == 1⟩

/-- A candidate Record as far as the downgrade policy is concerned. -/
structure Candidate where
  name : String
  version : Nat
  deriving DecidableEq, Repr

/-- A requested Job: the spec string and whether a per-Job allow-downgrade
modifier was attached. -/
structure Job where
  spec : String
  allowDowngradeMod : Bool
  deriving DecidableEq, Repr

/-- From src/src/main.cpp line 318: add_jobs is called with SOLVER_INSTALL
only, so no per-Job modifier is ever attached on this code path. -/
def add_jobs (specs : List String) : List Job :=
  specs.map fun s => ⟨s, false⟩

/-- Modelled from the spec (section 4.3): the downgrade policy of the
Solver, which is not under src.  A candidate whose version is below the
installed one is admissible only when the allow-downgrade flag is set;
the choice returns the first admissible candidate carrying the requested
version. -/
def solver_choose (flags : SolverFlags) (installedVer reqVer : Nat)
    (cands : List Candidate) : Option Candidate :=
  cands.find? fun c =>
    c.version == reqVer && (flags.allowDowngrade || decide (installedVer ≤ c.version))

/-- One installed package as read from the installed snapshot
(PrefixData m_package_records). -/
structure PackageRecord where
  name : String
  version : String
  build_string : String
  channel : String
  deriving DecidableEq, Repr

/-- Models the mamba split helper used at line 374: split on the
separator, keeping empty fields. -/
def split (s sep : String) : List String := s.splitOn sep

/-- Line 368: channel.find of the default channel URL compares equal to
zero exactly when the channel string starts with that URL; stated over
the character lists so that it evaluates inside the kernel. -/
def isDefaultChannel (s : String) : Bool :=
  List.isPrefixOf "https://repo.anaconda.com/pkgs/".data s.data

/-- From src/src/main.cpp lines 362 to 377: the four multimap values
inserted for one package; the channel column is blank for a default
channel and otherwise the fourth field of the channel URL split on
slashes.  The result is none when splitted_channel has no index 3. -/
def packageEntries (p : PackageRecord) : Option (List String) :=
  if isDefaultChannel p.channel then
    some [p.name, p.version, p.build_string, ""]
  else
    ((split p.channel "/")[3]?).map fun c => [p.name, p.version, p.build_string, c]

/-- The aux vector of line 387: four entries per package, packages taken
in ascending name order (the multimap iteration); none as soon as one
package entry is out of bounds. -/
def buildAux : List PackageRecord → Option (List String)
  | [] => some []
  | p :: rest =>
      match packageEntries p, buildAux rest with
      | some l, some ls => some (l ++ ls)
      | _, _ => none

/-- The width of the C++ size_t on the target platform. -/
def SIZE_T_MOD : Nat := 2 ^ 64

/-- Line 398: the loop bound aux.size() - 4 is computed in size_t
arithmetic, so it wraps around when aux holds fewer than 4 entries. -/
def rowBound (n : Nat) : Nat := (n + SIZE_T_MOD - 4) % SIZE_T_MOD

/-- One printed table row: name, version, build, channel. -/
abbrev Row := String × String × String × String

/-- From src/src/main.cpp lines 397 to 402: the row loop.  j starts at 0
and advances by 4 while j is below the wrapped bound; every aux access is
through a total lookup, and none marks an access out of bounds.  The
first argument is recursion fuel for Lean only: an iteration recurses
only when aux gets read in bounds at j + 3, which keeps j at most
aux.length, so the loop makes at most aux.length / 4 + 1 calls and the
fuel chosen in rowLoop is never exhausted (rowLoopFuel_stable below
makes this formal). -/
def rowLoopFuel : Nat → List String → Nat → Option (List Row)
  | 0, _, _ => none
  | fuel + 1, aux, j =>
      if j < rowBound aux.length then
        match aux[j]? with
        | none => none
        | some a =>
            match aux[j + 1]? with
            | none => none
            | some b =>
                match aux[j + 2]? with
                | none => none
                | some c =>
                    match aux[j + 3]? with
                    | none => none
                    | some d =>
                        match rowLoopFuel fuel aux (j + 4) with
                        | some rows => some ((a, b, c, d) :: rows)
                        | none => none
      else
        some []

/-- The row loop entered with enough fuel for the whole run. -/
def rowLoop (aux : List String) (j : Nat) : Option (List Row) :=
  rowLoopFuel (aux.length + 1) aux j

/-- Shallow embedding of list_packages (src/src/main.cpp lines 350 to
404): order the installed packages by name, build the aux vector, then
run the row loop from index 0.  The value is the printed table, or none
when the run performs an out-of-bounds access. -/
def list_packages_rows (pkgs : List PackageRecord) : Option (List Row) :=
  match buildAux (List.insertionSort (fun a b => a.name ≤ b.name) pkgs) with
  | some aux => rowLoop aux 0
  | none => none

/-- A configuration with root and target set, no channels, all global
flags off. -/
def ctxPlain : Ctx := ⟨["root"], ["env"], [], false, false, false, false⟩

/-- A configuration with one channel, all global flags off. -/
def ctxOneChannel : Ctx := ⟨["root"], ["env"], ["conda-forge"], false, false, false, false⟩

/-- The one-channel configuration with the dry-run flag set. -/
def ctxDry : Ctx := ⟨["root"], ["env"], ["conda-forge"], false, true, false, false⟩

/-- A configuration whose root path is unset. -/
def ctxNoRoot : Ctx := ⟨[], ["env"], [], false, false, false, false⟩

/-- An oracle where everything succeeds, the solve returns a one-step
plan and the prompt answer is yes. -/
def worldOk : World := ⟨true, true, true, some [Step.link "foo"], true⟩

/-- An oracle where everything succeeds up to the solve, which reports a
conflict. -/
def worldConflict : World := ⟨true, true, true, none, true⟩

/-- An oracle where everything succeeds and the prompt answer is no. -/
def worldDecline : World := ⟨true, true, true, some [Step.link "foo"], false⟩

/-!  Helper lemmas. -/

/-- One unfolding of the row loop at positive fuel. -/
theorem rowLoopFuel_succ (fuel : Nat) (aux : List String) (j : Nat) :
    rowLoopFuel (fuel + 1) aux j =
      if j < rowBound aux.length then
        match aux[j]? with
        | none => none
        | some a =>
            match aux[j + 1]? with
            | none => none
            | some b =>
                match aux[j + 2]? with
                | none => none
                | some c =>
                    match aux[j + 3]? with
                    | none => none
                    | some d =>
                        match rowLoopFuel fuel aux (j + 4) with
                        | some rows => some ((a, b, c, d) :: rows)
                        | none => none
      else
        some [] := rfl

/-- Fuel beyond aux.length / 4 plus one never changes the value of the
row loop: the fuel parameter of rowLoopFuel is an artifact of the
embedding, not part of the modelled behavior. -/
theorem rowLoopFuel_stable (aux : List String) :
    ∀ (f j : Nat), aux.length ≤ 4 * f + j →
      rowLoopFuel (f + 1) aux j = rowLoopFuel (f + 2) aux j := by
  intro f
  induction f with
  | zero =>
    intro j hj
    conv_lhs => rw [rowLoopFuel_succ]
    conv_rhs => rw [rowLoopFuel_succ]
    split
    · cases h0 : aux[j]? with
      | none => simp
      | some a =>
        have hx : j < aux.length := by
          by_contra hc
          rw [List.getElem?_eq_none (by omega)] at h0
          exact Option.noConfusion h0
        omega
    · rfl
  | succ f ih =>
    intro j hj
    conv_lhs => rw [rowLoopFuel_succ]
    conv_rhs => rw [rowLoopFuel_succ]
    split
    · cases h0 : aux[j]? with
      | none => rfl
      | some a =>
        cases h1 : aux[j + 1]? with
        | none => rfl
        | some b =>
          cases h2 : aux[j + 2]? with
          | none => rfl
          | some c =>
            cases h3 : aux[j + 3]? with
            | none => rfl
            | some d =>
              have hx : j + 3 < aux.length := by
                by_contra hc
                rw [List.getElem?_eq_none (by omega)] at h3
                exact Option.noConfusion h3
              rw [ih (j + 4) (by omega)]
    · rfl

/-- Every effect of the channel registration loop is a channel Repo
registration whose priority pair is (prio - j, 0) for some position j in
the url list. -/
theorem mem_channel_repo_effects_from (urls : List String) (prio : Nat) (e : Effect)
    (h : e ∈ channel_repo_effects_from prio urls) :
    ∃ u j, j < urls.length ∧ e = Effect.registerRepo (RepoId.channel u) (prio - j, 0) := by
  induction urls generalizing prio with
  | nil => simp [channel_repo_effects_from] at h
  | cons u rest ih =>
    simp only [channel_repo_effects_from, List.mem_cons] at h
    rcases h with h | h
    · exact ⟨u, 0, by simp, by simp [h]⟩
    · obtain ⟨v, j, hj, he⟩ := ih (prio - 1) h
      refine ⟨v, j + 1, by simp only [List.length_cons]; omega, ?_⟩
      have hs : prio - 1 - j = prio - (j + 1) := by omega
      rw [he, hs]

/-- The channel registration loop registers the channel at position i
with priority pair (prio - i, 0). -/
theorem channel_repo_effects_from_get (urls : List String) (prio i : Nat) (u : String)
    (hu : urls[i]? = some u) :
    (channel_repo_effects_from prio urls)[i]? =
      some (Effect.registerRepo (RepoId.channel u) (prio - i, 0)) := by
  induction urls generalizing prio i with
  | nil => simp at hu
  | cons a rest ih =>
    cases i with
    | zero =>
      simp only [List.getElem?_cons_zero, Option.some_inj] at hu
      simp [channel_repo_effects_from, hu]
    | succ n =>
      simp only [List.getElem?_cons_succ] at hu
      simp only [channel_repo_effects_from, List.getElem?_cons_succ]
      rw [ih (prio - 1) n hu]
      have hs : prio - 1 - n = prio - (n + 1) := by omega
      rw [hs]

/-- The rank registered for the channel at position i is N - i. -/
theorem registeredRank_eq (urls : List String) (i : Nat) (u : String)
    (hu : urls[i]? = some u) :
    registeredRank urls i = urls.length - i := by
  unfold registeredRank channel_repo_effects
  rw [channel_repo_effects_from_get urls urls.length i u hu]

/-- Every element of preEffects is a print, the cache dir creation, or a
cache write under the cache dir. -/
theorem mem_preEffects (ctx : Ctx) (e : Effect) (h : e ∈ preEffects ctx) :
    (∃ m, e = Effect.print m) ∨ e = Effect.createDirs (cacheDirOf ctx)
    ∨ ∃ u, e = Effect.cacheWrite (cacheDirOf ctx ++ [u]) := by
  simp only [preEffects, List.mem_cons, List.mem_map] at h
  rcases h with h | h | ⟨u, -, h⟩
  · exact Or.inl ⟨_, h⟩
  · exact Or.inr (Or.inl h)
  · exact Or.inr (Or.inr ⟨cache_fn_url u, h.symm⟩)

/-- Every element of repoRegEffects is the installed-snapshot
registration with priority (0, 0) or a channel registration with
priority (N - j, 0) for a position j in the channel url list. -/
theorem mem_repoRegEffects (ctx : Ctx) (e : Effect) (h : e ∈ repoRegEffects ctx) :
    e = Effect.registerRepo RepoId.installed (0, 0)
    ∨ ∃ u j, j < (calculate_channel_urls ctx.channels).length ∧
        e = Effect.registerRepo (RepoId.channel u)
          ((calculate_channel_urls ctx.channels).length - j, 0) := by
  simp only [repoRegEffects, List.mem_cons] at h
  rcases h with h | h
  · exact Or.inl h
  · exact Or.inr (mem_channel_repo_effects_from _ _ e h)

/-- The json log list holds at most the logJson effect. -/
theorem mem_jsonEffects (ctx : Ctx) (e : Effect) (h : e ∈ jsonEffects ctx) :
    e = Effect.logJson := by
  unfold jsonEffects at h
  split at h <;> simp_all

/-- Target environment dirs are created only outside dry-run, and only
the three fixed directories. -/
theorem mem_envDirEffects (ctx : Ctx) (ce : Bool) (e : Effect)
    (h : e ∈ envDirEffects ctx ce) :
    ctx.dryRun = false ∧
      (e = Effect.createDirs ctx.targetPrefixPath
        ∨ e = Effect.createDirs (ctx.targetPrefixPath ++ ["conda-meta"])
        ∨ e = Effect.createDirs (ctx.targetPrefixPath ++ ["pkgs"])) := by
  unfold envDirEffects at h
  split at h
  · rename_i hc
    simp only [Bool.and_eq_true, Bool.not_eq_true'] at hc
    simp only [List.mem_cons, List.not_mem_nil, or_false] at h
    exact ⟨hc.2, h⟩
  · simp at h

/-- Execute effects exist only outside dry-run and are run steps. -/
theorem mem_trans_execute (dr : Bool) (plan : List Step) (e : Effect)
    (h : e ∈ trans_execute dr plan) : dr = false ∧ ∃ s, e = Effect.runStep s := by
  unfold trans_execute at h
  split at h
  · simp at h
  · rename_i hdr
    simp only [List.mem_map] at h
    obtain ⟨s, -, hs⟩ := h
    exact ⟨by revert hdr; cases dr <;> simp, ⟨s, hs.symm⟩⟩

/-- No step effect occurs in preEffects. -/
theorem isStep_false_of_mem_pre (ctx : Ctx) (e : Effect) (h : e ∈ preEffects ctx) :
    Effect.isStep e = false := by
  rcases mem_preEffects ctx e h with ⟨m, rfl⟩ | rfl | ⟨u, rfl⟩ <;> rfl

/-- No step effect occurs in repoRegEffects. -/
theorem isStep_false_of_mem_repoReg (ctx : Ctx) (e : Effect) (h : e ∈ repoRegEffects ctx) :
    Effect.isStep e = false := by
  rcases mem_repoRegEffects ctx e h with rfl | ⟨u, j, -, rfl⟩ <;> rfl

/-- Every path mutated by a preEffects element lies in the pkgs area of
the root. -/
theorem mutated_underPkgs_of_mem_pre (ctx : Ctx) (e : Effect) (h : e ∈ preEffects ctx) :
    ∀ p, Effect.mutatedPath e = some p → underPkgs ctx.rootPrefixPath p := by
  rcases mem_preEffects ctx e h with ⟨m, rfl⟩ | rfl | ⟨u, rfl⟩
  · intro p hp
    exact absurd hp (by simp [Effect.mutatedPath])
  · intro p hp
    simp only [Effect.mutatedPath, Option.some_inj] at hp
    exact ⟨["cache"], by simp [← hp, cacheDirOf]⟩
  · intro p hp
    simp only [Effect.mutatedPath, Option.some_inj] at hp
    exact ⟨["cache", u], by simp [← hp, cacheDirOf]⟩

/-- repoRegEffects mutate no path. -/
theorem mutated_none_of_mem_repoReg (ctx : Ctx) (e : Effect) (h : e ∈ repoRegEffects ctx) :
    Effect.mutatedPath e = none := by
  rcases mem_repoRegEffects ctx e h with rfl | ⟨u, j, -, rfl⟩ <;> rfl

/-- The solve marker is not among the preEffects. -/
theorem solveCall_not_mem_pre (ctx : Ctx) : Effect.solveCall ∉ preEffects ctx := by
  intro h
  rcases mem_preEffects ctx _ h with ⟨m, hm⟩ | hm | ⟨u, hm⟩ <;> exact Effect.noConfusion hm

/-- The prompt marker is not among the preEffects. -/
theorem promptUser_not_mem_pre (ctx : Ctx) : Effect.promptUser ∉ preEffects ctx := by
  intro h
  rcases mem_preEffects ctx _ h with ⟨m, hm⟩ | hm | ⟨u, hm⟩ <;> exact Effect.noConfusion hm

/-- The solve marker is not among the repoRegEffects. -/
theorem solveCall_not_mem_repoReg (ctx : Ctx) : Effect.solveCall ∉ repoRegEffects ctx := by
  intro h
  rcases mem_repoRegEffects ctx _ h with hm | ⟨u, j, -, hm⟩ <;> exact Effect.noConfusion hm

/-- The prompt marker is not among the repoRegEffects. -/
theorem promptUser_not_mem_repoReg (ctx : Ctx) : Effect.promptUser ∉ repoRegEffects ctx := by
  intro h
  rcases mem_repoRegEffects ctx _ h with hm | ⟨u, j, -, hm⟩ <;> exact Effect.noConfusion hm

/-- No Repo registration occurs among the preEffects. -/
theorem registerRepo_not_mem_pre (ctx : Ctx) (r : RepoId) (pr : Nat × Nat) :
    Effect.registerRepo r pr ∉ preEffects ctx := by
  intro h
  rcases mem_preEffects ctx _ h with ⟨m, hm⟩ | hm | ⟨u, hm⟩ <;> exact Effect.noConfusion hm

/-- A channel registration found among the repoRegEffects carries a
positive source rank. -/
theorem channel_rank_pos_of_mem_repoReg (ctx : Ctx) (u : String) (p : Nat × Nat)
    (h : Effect.registerRepo (RepoId.channel u) p ∈ repoRegEffects ctx) : 0 < p.1 := by
  rcases mem_repoRegEffects ctx _ h with hm | ⟨v, j, hj, hm⟩
  · simp at hm
  · simp only [Effect.registerRepo.injEq, RepoId.channel.injEq] at hm
    obtain ⟨-, hp⟩ := hm
    rw [hp]
    simpa using hj

/-- The five possible outcomes of install_specs: an early configuration
or cache failure, a download failure, a solver conflict, a declined
prompt, or a completed run. -/
theorem install_specs_cases (ctx : Ctx) (ce : Bool) (w : World) :
    (∃ m1 m2, install_specs ctx ce w =
        ⟨[Effect.print m1, Effect.print m2], RunResult.exited 1, none⟩)
    ∨ install_specs ctx ce w =
        ⟨preEffects ctx ++ [Effect.print "repodata download failed"],
          RunResult.exited 1, none⟩
    ∨ (w.solveResult = none ∧ install_specs ctx ce w =
        ⟨preEffects ctx ++ repoRegEffects ctx ++
            [Effect.solveCall, Effect.print "solver conflict"],
          RunResult.exited 1, none⟩)
    ∨ (trans_prompt ctx.dryRun ctx.alwaysYes w.promptAnswer = false ∧
        install_specs ctx ce w =
          ⟨preEffects ctx ++ repoRegEffects ctx ++ [Effect.solveCall] ++
              jsonEffects ctx ++ [Effect.promptUser],
            RunResult.exited 0, some TransState.Planned⟩)
    ∨ (∃ plan, w.solveResult = some plan
        ∧ trans_prompt ctx.dryRun ctx.alwaysYes w.promptAnswer = true
        ∧ install_specs ctx ce w =
          ⟨preEffects ctx ++ repoRegEffects ctx ++ [Effect.solveCall] ++
              jsonEffects ctx ++ [Effect.promptUser] ++
              envDirEffects ctx ce ++ trans_execute ctx.dryRun plan,
            RunResult.completed, some (trans_final_state ctx.dryRun)⟩) := by
  by_cases h1 : ctx.rootPrefixPath.isEmpty
  · exact Or.inl ⟨"banner", "no MAMBA_ROOT_PREFIX set", by simp [install_specs, h1]⟩
  by_cases h2 : ctx.targetPrefixPath.isEmpty
  · exact Or.inl ⟨"banner", "no active target", by simp [install_specs, h1, h2]⟩
  by_cases h3 : (!w.targetExists && !ce)
  · exact Or.inl ⟨"banner", "Prefix does not exist", by simp [install_specs, h1, h2, h3]⟩
  by_cases h4 : w.cacheDirOk
  case neg =>
    exact Or.inl ⟨"banner", "Could not create pkgs cache dirs",
      by simp [install_specs, h1, h2, h3, h4]⟩
  by_cases h5 : w.downloadOk
  case neg =>
    exact Or.inr (Or.inl (by simp [install_specs, h1, h2, h3, h4, h5]))
  cases h6 : w.solveResult with
  | none =>
    exact Or.inr (Or.inr (Or.inl
      ⟨rfl, by simp [install_specs, h1, h2, h3, h4, h5, h6]⟩))
  | some plan =>
    by_cases h7 : trans_prompt ctx.dryRun ctx.alwaysYes w.promptAnswer
    · exact Or.inr (Or.inr (Or.inr (Or.inr
        ⟨plan, rfl, h7, by simp [install_specs, h1, h2, h3, h4, h5, h6, h7]⟩)))
    · exact Or.inr (Or.inr (Or.inr (Or.inl
        ⟨by simpa using h7, by simp [install_specs, h1, h2, h3, h4, h5, h6, h7]⟩)))

/-!  Claim theorems. -/

/-- C9: the claim states that every sequence access of list_packages is
in bounds, in particular also for a snapshot with zero installed
packages.  Evaluating the embedding on the empty snapshot refutes this:
aux is empty, the loop bound aux.size() - 4 wraps around in size_t
arithmetic, the loop body runs and the access aux[0] is out of bounds
(the total embedding returns none). -/
theorem C9_empty_snapshot_out_of_bounds : list_packages_rows [] = none := by decide

/-- C10: the claim states that the printed table has exactly one row per
installed package.  Evaluating the embedding on a snapshot with exactly
one installed package yields a table with zero rows: the loop condition
j < aux.size() - 4 already fails at j = 0, so the alphabetically last
package is always dropped. -/
theorem C10_single_package_no_rows :
    list_packages_rows
        [⟨"xtensor", "0.21.4", "0", "https://repo.anaconda.com/pkgs/main"⟩] =
      some [] := by decide

/-- C3 counterexample: for the two-channel list the registered rank pairs
are (2, 0) then (1, 0), exactly as the claim says, but then the first
listed channel does not receive the best priority under the rule that a
lower source-rank is preferred: its rank 2 is not at most the rank 1 of
the second channel.  The conjunction asserted by the claim is false at
this input. -/
theorem C3_counterexample :
    ¬ (registeredRank ["a", "b"] 0 = 2 ∧ registeredRank ["a", "b"] 1 = 1 ∧
        registeredRank ["a", "b"] 0 ≤ registeredRank ["a", "b"] 1) := by decide

/-- C3 amended: the Repo created from the channel at position i (0-based)
of the configured list of length N is registered with priority pair
(N - i, 0), these ranks are strictly decreasing along the list, and the
first listed channel receives the best priority under the rule that a
higher source-rank value is preferred: every rank is at most the rank of
the first channel. -/
theorem C3_amended_priorities (urls : List String) (i : Nat) (u : String)
    (hu : urls[i]? = some u) :
    (channel_repo_effects urls)[i]? =
        some (Effect.registerRepo (RepoId.channel u) (urls.length - i, 0))
    ∧ (∀ j v, urls[j]? = some v → registeredRank urls j ≤ registeredRank urls 0)
    ∧ (∀ j k vj vk, j < k → urls[j]? = some vj → urls[k]? = some vk →
        registeredRank urls k < registeredRank urls j) := by
  obtain ⟨hi, -⟩ := List.getElem?_eq_some_iff.mp hu
  refine ⟨channel_repo_effects_from_get urls urls.length i u hu, ?_, ?_⟩
  · intro j v hv
    obtain ⟨hj, -⟩ := List.getElem?_eq_some_iff.mp hv
    have h0 : urls[0]? = some urls[0] := List.getElem?_eq_getElem (by omega)
    rw [registeredRank_eq urls j v hv, registeredRank_eq urls 0 urls[0] h0]
    omega
  · intro j k vj vk hjk hvj hvk
    obtain ⟨hk, -⟩ := List.getElem?_eq_some_iff.mp hvk
    rw [registeredRank_eq urls j vj hvj, registeredRank_eq urls k vk hvk]
    omega

/-- C3 witness: the amended statement evaluated on the two-channel list
at position 0. -/
theorem C3_witness :
    (channel_repo_effects ["a", "b"])[0]? =
        some (Effect.registerRepo (RepoId.channel "a")
          ((["a", "b"] : List String).length - 0, 0))
    ∧ (∀ j v, (["a", "b"] : List String)[j]? = some v →
        registeredRank ["a", "b"] j ≤ registeredRank ["a", "b"] 0)
    ∧ (∀ j k vj vk, j < k → (["a", "b"] : List String)[j]? = some vj →
        (["a", "b"] : List String)[k]? = some vk →
        registeredRank ["a", "b"] k < registeredRank ["a", "b"] j) :=
  C3_amended_priorities ["a", "b"] 0 "a" (by decide)

/-- C4 counterexample: install_specs attaches no per-Job allow-downgrade
modifier (add_jobs is called with SOLVER_INSTALL only), yet under the
solver flags it passes the Solver chooses the Record foo version 1 even
though version 2 is the installed one: a downgrade is selected although
the modifier was not supplied, refuting the claim. -/
theorem C4_counterexample :
    add_jobs ["foo==1"] = [⟨"foo==1", false⟩]
    ∧ solver_choose (flagsOf install_solver_flags) 2 1 [⟨"foo", 1⟩] = some ⟨"foo", 1⟩
    ∧ ¬ (2 ≤ (1 : Nat)) := by decide

/-- C4 amended: install_specs passes (SOLVER_FLAG_ALLOW_DOWNGRADE, 1) to
the Solver on every solve request, so downgrades are globally enabled on
this code path regardless of any per-Job modifier; only when the
allow-downgrade flag is off does the Solver never choose a Record whose
version is lower than the installed one. -/
theorem C4_amended_downgrade_policy :
    (flagsOf install_solver_flags).allowDowngrade = true
    ∧ ∀ (installedVer reqVer : Nat) (cands : List Candidate) (c : Candidate),
        solver_choose ⟨false⟩ installedVer reqVer cands = some c →
        installedVer ≤ c.version := by
  refine ⟨by decide, ?_⟩
  intro iv rv cands c hc
  have hp := List.find?_some hc
  simp only [Bool.and_eq_true, Bool.or_eq_true, decide_eq_true_eq] at hp
  rcases hp with ⟨-, h | h⟩
  · exact absurd h (by simp)
  · exact h

/-- C4 witness: the amended statement applied at a concrete input where
the flag-off solver chooses version 2 over installed version 1. -/
theorem C4_witness :
    (flagsOf install_solver_flags).allowDowngrade = true
    ∧ 1 ≤ (Candidate.mk "foo" 2).version :=
  ⟨C4_amended_downgrade_policy.1,
    C4_amended_downgrade_policy.2 1 2 [⟨"foo", 2⟩] ⟨"foo", 2⟩ (by decide)⟩

/-- Safety of the preEffects: not a step, and every mutated path is in
the pkgs area. -/
theorem safe_of_mem_pre (ctx : Ctx) (e : Effect) (h : e ∈ preEffects ctx) :
    Effect.isStep e = false
    ∧ ∀ p, Effect.mutatedPath e = some p → underPkgs ctx.rootPrefixPath p :=
  ⟨isStep_false_of_mem_pre ctx e h, mutated_underPkgs_of_mem_pre ctx e h⟩

/-- Safety of the repoRegEffects: not a step and no path mutated. -/
theorem safe_of_mem_repoReg (ctx : Ctx) (e : Effect) (h : e ∈ repoRegEffects ctx) :
    Effect.isStep e = false
    ∧ ∀ p, Effect.mutatedPath e = some p → underPkgs ctx.rootPrefixPath p := by
  refine ⟨isStep_false_of_mem_repoReg ctx e h, fun p hp => ?_⟩
  rw [mutated_none_of_mem_repoReg ctx e h] at hp
  exact Option.noConfusion hp

/-- The only directory creation among the preEffects is the cache dir. -/
theorem createDirs_cache_of_mem_pre (ctx : Ctx) (e : Effect) (h : e ∈ preEffects ctx) :
    ∀ p, e = Effect.createDirs p → p = cacheDirOf ctx := by
  rcases mem_preEffects ctx e h with ⟨m, rfl⟩ | rfl | ⟨u, rfl⟩ <;> intro p hp
  · exact Effect.noConfusion hp
  · injection hp with h1
    exact h1.symm
  · exact Effect.noConfusion hp

/-- No directory creation occurs among the repoRegEffects. -/
theorem createDirs_not_mem_repoReg (ctx : Ctx) (p : Path) :
    Effect.createDirs p ∉ repoRegEffects ctx := by
  intro h
  rcases mem_repoRegEffects ctx _ h with hm | ⟨u, j, -, hm⟩ <;> exact Effect.noConfusion hm

/-- C1: with the dry-run flag set, every install or create invocation
either exits before a Transaction is built or halts the Transaction in
the Planned state, and no Link or Unlink step effect ever occurs. -/
theorem C1_dry_run_halts_planned (ctx : Ctx) (ce : Bool) (w : World)
    (h : ctx.dryRun = true) :
    ((install_specs ctx ce w).transState = none
      ∨ (install_specs ctx ce w).transState = some TransState.Planned)
    ∧ ∀ e ∈ (install_specs ctx ce w).effects, Effect.isStep e = false := by
  rcases install_specs_cases ctx ce w with
      ⟨m1, m2, heq⟩ | heq | ⟨hs, heq⟩ | ⟨hp, heq⟩ | ⟨plan, hs, hp, heq⟩ <;> rw [heq]
  · refine ⟨Or.inl rfl, fun e he => ?_⟩
    simp only [List.mem_cons, List.not_mem_nil, or_false] at he
    rcases he with rfl | rfl <;> rfl
  · refine ⟨Or.inl rfl, fun e he => ?_⟩
    simp only [List.mem_append, List.mem_singleton] at he
    rcases he with he | rfl
    · exact isStep_false_of_mem_pre ctx e he
    · rfl
  · refine ⟨Or.inl rfl, fun e he => ?_⟩
    simp only [List.mem_append, List.mem_cons, List.not_mem_nil, or_false] at he
    rcases he with (he | he) | rfl | rfl
    · exact isStep_false_of_mem_pre ctx e he
    · exact isStep_false_of_mem_repoReg ctx e he
    · rfl
    · rfl
  · refine ⟨Or.inr rfl, fun e he => ?_⟩
    simp only [List.mem_append, List.mem_singleton] at he
    rcases he with (((he | he) | rfl) | he) | rfl
    · exact isStep_false_of_mem_pre ctx e he
    · exact isStep_false_of_mem_repoReg ctx e he
    · rfl
    · rw [mem_jsonEffects ctx e he]
      rfl
    · rfl
  · refine ⟨Or.inr (by simp [trans_final_state, h]), fun e he => ?_⟩
    simp only [List.mem_append, List.mem_singleton] at he
    rcases he with (((((he | he) | rfl) | he) | rfl) | he) | he
    · exact isStep_false_of_mem_pre ctx e he
    · exact isStep_false_of_mem_repoReg ctx e he
    · rfl
    · rw [mem_jsonEffects ctx e he]
      rfl
    · rfl
    · obtain ⟨hdr, -⟩ := mem_envDirEffects ctx ce e he
      rw [h] at hdr
      exact Bool.noConfusion hdr
    · obtain ⟨hdr, -⟩ := mem_trans_execute ctx.dryRun plan e he
      rw [h] at hdr
      exact Bool.noConfusion hdr

/-- C1 witness: the dry-run statement at a concrete invocation. -/
theorem C1_witness :
    ((install_specs ctxDry false worldOk).transState = none
      ∨ (install_specs ctxDry false worldOk).transState = some TransState.Planned)
    ∧ ∀ e ∈ (install_specs ctxDry false worldOk).effects, Effect.isStep e = false :=
  C1_dry_run_halts_planned ctxDry false worldOk rfl

/-- C2 counterexample: a solver conflict is a failure before any
confirmation, yet the run has already created the package cache dirs, so
the disk state after the failure does not equal the state before the
invocation, refuting the claim as stated. -/
theorem C2_counterexample :
    isFailureExit (install_specs ctxPlain false worldConflict).result = true
    ∧ (install_specs ctxPlain false worldConflict).transState = none
    ∧ (install_specs ctxPlain false worldConflict).effects.any Effect.isFsMutation
        = true := by
  decide

/-- C2 amended: an invocation that fails before the Transaction reaches
the Confirmed state never builds a Transaction past Planned, runs no
Link or Unlink step, and every filesystem location it created or
modified lies inside the pkgs cache area of the root; the target
environment is never touched on failing paths. -/
theorem C2_amended_failure_touches_only_cache (ctx : Ctx) (ce : Bool) (w : World)
    (h : isFailureExit (install_specs ctx ce w).result = true) :
    (install_specs ctx ce w).transState = none
    ∧ ∀ e ∈ (install_specs ctx ce w).effects,
        Effect.isStep e = false
        ∧ ∀ p, Effect.mutatedPath e = some p → underPkgs ctx.rootPrefixPath p := by
  rcases install_specs_cases ctx ce w with
      ⟨m1, m2, heq⟩ | heq | ⟨hs, heq⟩ | ⟨hp, heq⟩ | ⟨plan, hs, hp, heq⟩ <;>
    rw [heq] at h ⊢
  · refine ⟨rfl, fun e he => ?_⟩
    simp only [List.mem_cons, List.not_mem_nil, or_false] at he
    rcases he with rfl | rfl <;>
      exact ⟨rfl, fun p hp => Option.noConfusion hp⟩
  · refine ⟨rfl, fun e he => ?_⟩
    simp only [List.mem_append, List.mem_singleton] at he
    rcases he with he | rfl
    · exact safe_of_mem_pre ctx e he
    · exact ⟨rfl, fun p hp => Option.noConfusion hp⟩
  · refine ⟨rfl, fun e he => ?_⟩
    simp only [List.mem_append, List.mem_cons, List.not_mem_nil, or_false] at he
    rcases he with (he | he) | rfl | rfl
    · exact safe_of_mem_pre ctx e he
    · exact safe_of_mem_repoReg ctx e he
    · exact ⟨rfl, fun p hp => Option.noConfusion hp⟩
    · exact ⟨rfl, fun p hp => Option.noConfusion hp⟩
  · simp [isFailureExit] at h
  · simp [isFailureExit] at h

/-- C2 witness: the amended statement at the concrete conflicting
invocation. -/
theorem C2_witness :
    (install_specs ctxPlain false worldConflict).transState = none
    ∧ ∀ e ∈ (install_specs ctxPlain false worldConflict).effects,
        Effect.isStep e = false
        ∧ ∀ p, Effect.mutatedPath e = some p →
            underPkgs ctxPlain.rootPrefixPath p :=
  C2_amended_failure_touches_only_cache ctxPlain false worldConflict (by decide)

/-- C5: whenever the solver runs, the Repo built from the installed
snapshot was registered into the Pool earlier in the trace with priority
pair (0, 0), and that pair is strictly below the priority pair of every
channel Repo registration of the run. -/
theorem C5_installed_repo_before_solve (ctx : Ctx) (ce : Bool) (w : World)
    (h : Effect.solveCall ∈ (install_specs ctx ce w).effects) :
    (∃ front back, (install_specs ctx ce w).effects =
        front ++ Effect.registerRepo RepoId.installed (0, 0) :: back
        ∧ Effect.solveCall ∈ back)
    ∧ ∀ u p, Effect.registerRepo (RepoId.channel u) p ∈ (install_specs ctx ce w).effects →
        priorityLt (0, 0) p := by
  rcases install_specs_cases ctx ce w with
      ⟨m1, m2, heq⟩ | heq | ⟨hs, heq⟩ | ⟨hp, heq⟩ | ⟨plan, hs, hp, heq⟩ <;>
    rw [heq] at h ⊢
  · simp at h
  · simp only [List.mem_append, List.mem_singleton] at h
    rcases h with h | h
    · exact absurd h (solveCall_not_mem_pre ctx)
    · exact Effect.noConfusion h
  · refine ⟨⟨preEffects ctx,
        channel_repo_effects (calculate_channel_urls ctx.channels) ++
          [Effect.solveCall, Effect.print "solver conflict"],
        by simp [repoRegEffects, List.append_assoc], by simp⟩, ?_⟩
    intro u p hm
    simp only [List.mem_append, List.mem_cons, List.not_mem_nil, or_false] at hm
    rcases hm with (hm | hm) | hm | hm
    · exact absurd hm (registerRepo_not_mem_pre ctx _ _)
    · exact Or.inl (channel_rank_pos_of_mem_repoReg ctx u p hm)
    · exact Effect.noConfusion hm
    · exact Effect.noConfusion hm
  · refine ⟨⟨preEffects ctx,
        channel_repo_effects (calculate_channel_urls ctx.channels) ++
          [Effect.solveCall] ++ jsonEffects ctx ++ [Effect.promptUser],
        by simp [repoRegEffects, List.append_assoc], by simp⟩, ?_⟩
    intro u p hm
    simp only [List.mem_append, List.mem_singleton] at hm
    rcases hm with (((hm | hm) | hm) | hm) | hm
    · exact absurd hm (registerRepo_not_mem_pre ctx _ _)
    · exact Or.inl (channel_rank_pos_of_mem_repoReg ctx u p hm)
    · exact Effect.noConfusion hm
    · exact Effect.noConfusion (mem_jsonEffects ctx _ hm)
    · exact Effect.noConfusion hm
  · refine ⟨⟨preEffects ctx,
        channel_repo_effects (calculate_channel_urls ctx.channels) ++
          [Effect.solveCall] ++ jsonEffects ctx ++ [Effect.promptUser] ++
          envDirEffects ctx ce ++ trans_execute ctx.dryRun plan,
        by simp [repoRegEffects, List.append_assoc], by simp⟩, ?_⟩
    intro u p hm
    simp only [List.mem_append, List.mem_singleton] at hm
    rcases hm with (((((hm | hm) | hm) | hm) | hm) | hm) | hm
    · exact absurd hm (registerRepo_not_mem_pre ctx _ _)
    · exact Or.inl (channel_rank_pos_of_mem_repoReg ctx u p hm)
    · exact Effect.noConfusion hm
    · exact Effect.noConfusion (mem_jsonEffects ctx _ hm)
    · exact Effect.noConfusion hm
    · obtain ⟨-, hm2⟩ := mem_envDirEffects ctx ce _ hm
      rcases hm2 with hm2 | hm2 | hm2 <;> exact Effect.noConfusion hm2
    · obtain ⟨-, s, hm2⟩ := mem_trans_execute ctx.dryRun plan _ hm
      exact Effect.noConfusion hm2

/-- C5 witness: the statement at a concrete one-channel invocation that
reaches the solver. -/
theorem C5_witness :
    (∃ front back, (install_specs ctxOneChannel false worldOk).effects =
        front ++ Effect.registerRepo RepoId.installed (0, 0) :: back
        ∧ Effect.solveCall ∈ back)
    ∧ ∀ u p, Effect.registerRepo (RepoId.channel u) p ∈
          (install_specs ctxOneChannel false worldOk).effects →
        priorityLt (0, 0) p :=
  C5_installed_repo_before_solve ctxOneChannel false worldOk (by decide)

/-- C6: an invocation whose confirmation prompt is reached and answers no
exits with code 0, leaves the Transaction in the Planned state, runs no
Link or Unlink step, creates no directory other than the package cache
dir, and every path it wrote lies inside the pkgs area of the root, so
the target environment and the installed snapshot are unchanged. -/
theorem C6_decline_cancels_everything (ctx : Ctx) (ce : Bool) (w : World)
    (hreach : Effect.promptUser ∈ (install_specs ctx ce w).effects)
    (hno : trans_prompt ctx.dryRun ctx.alwaysYes w.promptAnswer = false) :
    (install_specs ctx ce w).result = RunResult.exited 0
    ∧ (install_specs ctx ce w).transState = some TransState.Planned
    ∧ ∀ e ∈ (install_specs ctx ce w).effects,
        Effect.isStep e = false
        ∧ (∀ p, Effect.mutatedPath e = some p → underPkgs ctx.rootPrefixPath p)
        ∧ (∀ p, e = Effect.createDirs p → p = cacheDirOf ctx) := by
  rcases install_specs_cases ctx ce w with
      ⟨m1, m2, heq⟩ | heq | ⟨hs, heq⟩ | ⟨hp, heq⟩ | ⟨plan, hs, hp, heq⟩ <;>
    rw [heq] at hreach ⊢
  · simp at hreach
  · simp only [List.mem_append, List.mem_singleton] at hreach
    rcases hreach with hh | hh
    · exact absurd hh (promptUser_not_mem_pre ctx)
    · exact Effect.noConfusion hh
  · simp only [List.mem_append, List.mem_cons, List.not_mem_nil, or_false] at hreach
    rcases hreach with (hh | hh) | hh | hh
    · exact absurd hh (promptUser_not_mem_pre ctx)
    · exact absurd hh (promptUser_not_mem_repoReg ctx)
    · exact Effect.noConfusion hh
    · exact Effect.noConfusion hh
  · refine ⟨rfl, rfl, fun e he => ?_⟩
    simp only [List.mem_append, List.mem_singleton] at he
    rcases he with (((he | he) | rfl) | he) | rfl
    · exact ⟨(safe_of_mem_pre ctx e he).1, (safe_of_mem_pre ctx e he).2,
        createDirs_cache_of_mem_pre ctx e he⟩
    · refine ⟨(safe_of_mem_repoReg ctx e he).1, (safe_of_mem_repoReg ctx e he).2,
        fun p hp => ?_⟩
      rw [hp] at he
      exact absurd he (createDirs_not_mem_repoReg ctx p)
    · exact ⟨rfl, fun p hp => Option.noConfusion hp, fun p hp => Effect.noConfusion hp⟩
    · rw [mem_jsonEffects ctx e he]
      exact ⟨rfl, fun p hp => Option.noConfusion hp, fun p hp => Effect.noConfusion hp⟩
    · exact ⟨rfl, fun p hp => Option.noConfusion hp, fun p hp => Effect.noConfusion hp⟩
  · rw [hp] at hno
    exact Bool.noConfusion hno

/-- C6 witness: the statement at a concrete declined invocation. -/
theorem C6_witness :
    (install_specs ctxOneChannel false worldDecline).result = RunResult.exited 0
    ∧ (install_specs ctxOneChannel false worldDecline).transState
        = some TransState.Planned
    ∧ ∀ e ∈ (install_specs ctxOneChannel false worldDecline).effects,
        Effect.isStep e = false
        ∧ (∀ p, Effect.mutatedPath e = some p →
            underPkgs ctxOneChannel.rootPrefixPath p)
        ∧ (∀ p, e = Effect.createDirs p → p = cacheDirOf ctxOneChannel) :=
  C6_decline_cancels_everything ctxOneChannel false worldDecline (by decide) (by decide)

/-- C7: an install invocation with an unset root, an unset target, or a
nonexistent target outside create, prints the problem and exits with
code 1 having performed nothing but the two prints: no network fetch and
no filesystem mutation happened. -/
theorem C7_config_error_exits_clean (ctx : Ctx) (ce : Bool) (w : World)
    (h : ctx.rootPrefixPath = [] ∨ ctx.targetPrefixPath = []
      ∨ (w.targetExists = false ∧ ce = false)) :
    ∃ m, install_specs ctx ce w =
      ⟨[Effect.print "banner", Effect.print m], RunResult.exited 1, none⟩ := by
  by_cases h1 : ctx.rootPrefixPath.isEmpty
  · exact ⟨"no MAMBA_ROOT_PREFIX set", by simp [install_specs, h1]⟩
  by_cases h2 : ctx.targetPrefixPath.isEmpty
  · exact ⟨"no active target", by simp [install_specs, h1, h2]⟩
  rcases h with h | h | ⟨hte, hce⟩
  · exact absurd (show ctx.rootPrefixPath.isEmpty = true by simp [h]) h1
  · exact absurd (show ctx.targetPrefixPath.isEmpty = true by simp [h]) h2
  · exact ⟨"Prefix does not exist", by simp [install_specs, h1, h2, hte, hce]⟩

/-- C7 witness: the statement at a concrete invocation without a root. -/
theorem C7_witness :
    ∃ m, install_specs ctxNoRoot false worldOk =
      ⟨[Effect.print "banner", Effect.print m], RunResult.exited 1, none⟩ :=
  C7_config_error_exits_clean ctxNoRoot false worldOk (Or.inl rfl)

/-- C8: a create invocation whose target path already exists exits with
code 1 after a single print: no metadata fetch, no solve and no
filesystem mutation happened. -/
theorem C8_create_existing_target_exits (ctx : Ctx) (pfx : Path) (w : World)
    (h : w.targetExists = true) :
    create_command ctx pfx w =
      ⟨[Effect.print "Prefix already exists"], RunResult.exited 1, none⟩ := by
  simp [create_command, h]

/-- C8 witness: the statement at a concrete create invocation whose
target exists. -/
theorem C8_witness :
    create_command ctxPlain ["env"] worldOk =
      ⟨[Effect.print "Prefix already exists"], RunResult.exited 1, none⟩ :=
  C8_create_existing_target_exits ctxPlain ["env"] worldOk rfl

end Mamba
